import Mathlib

/-
Shallow embedding of the `cr` pixel crate.

The crate defines fixed-channel pixel record types over a generic scalar
type (`src/lib.rs`, `src/alt.rs`), zero-copy reinterpretation of pixels and
pixel slices as flat channel slices (`ComponentSlice`, in
`src/internal/rgb.rs` and `src/alt.rs`) and as byte slices
(`ComponentBytes`, `src/internal/pixel.rs`), generic per-channel arithmetic
(`src/internal/ops.rs`), and array/struct conversions
(`src/internal/convert/array.rs`).

Embedding conventions:
- Rust structs become Lean structures with the same field names in the same
  declared order; the tuple structs `Gray(T)` and `GrayAlpha(T, TA)` use
  field names `c0`, `c1` for the positional fields `.0`, `.1`.
- A Rust slice `[P]` becomes `List P`; the unsafe pointer-cast view
  `slice::from_raw_parts(ptr as *const T, len * A)` over a `#[repr]`-free
  struct of `A` fields of type `T` is embedded as the concatenation of each
  pixel's fields in declared (memory) order.
- A generic scalar bound such as `T: Add` becomes an explicit operation
  argument `addT : T → T → U` (the `Output` type may differ from `T`).
- Panics (`unwrap`, `assert_ne!`) become `Option`: `none` is an abort.
- The machine types `u8`/`u16` that appear only as alpha sentinel values
  are embedded as `Nat` (the sentinel literals `0xFF`, `0xFFFF` are far
  below any overflow concern).
-/

namespace Cr

/-- RGB pixel struct, fields in declared order `r, g, b` (src/lib.rs). -/
structure RGB (T : Type) where
  r : T
  g : T
  b : T
deriving DecidableEq

/-- RGBA pixel struct, fields `r, g, b, a`, alpha may have its own type
(src/lib.rs). -/
structure RGBA (T : Type) (TA : Type) where
  r : T
  g : T
  b : T
  a : TA
deriving DecidableEq

/-- BGR pixel struct, fields in declared order `b, g, r` (src/alt.rs). -/
structure BGR (T : Type) where
  b : T
  g : T
  r : T
deriving DecidableEq

/-- BGRA pixel struct, fields `b, g, r, a` (src/alt.rs). -/
structure BGRA (T : Type) (TA : Type) where
  b : T
  g : T
  r : T
  a : TA
deriving DecidableEq

/-- GRB pixel struct, fields in declared order `g, r, b` (src/alt.rs lines
81-90, under the `grb` cargo feature). -/
structure GRB (T : Type) where
  g : T
  r : T
  b : T
deriving DecidableEq

/-- ARGB pixel struct, fields in declared order `a, r, g, b` (src/alt.rs
lines 40-51, under the `argb` cargo feature). -/
structure ARGB (T : Type) (TA : Type) where
  a : TA
  r : T
  g : T
  b : T
deriving DecidableEq

/-- Grayscale tuple struct `Gray<T>(pub T)` (src/alt.rs); `c0` is field `.0`. -/
structure Gray (T : Type) where
  c0 : T
deriving DecidableEq

/-- Grayscale-with-alpha tuple struct `GrayAlpha<T, TA>(pub T, pub TA)`
(src/alt.rs); `c0`, `c1` are fields `.0`, `.1`. -/
structure GrayAlpha (T : Type) (TA : Type) where
  c0 : T
  c1 : TA
deriving DecidableEq

variable {T TA U UA B : Type}

/-! ### Component view layer (`ComponentSlice`) -/

/-- View of one `RGB<T>` as its 3 channels in memory order
(`impl ComponentSlice<T> for RGB<T>`, src/internal/rgb.rs lines 80-90). -/
def RGB.as_slice (p : RGB T) : List T := [p.r, p.g, p.b]

/-- View of a slice `[RGB<T>]` as `len * 3` channels
(`impl ComponentSlice<T> for [RGB<T>]`, src/internal/rgb.rs lines 92-104):
the pixels lie contiguously, so the flat view is the concatenation of each
pixel's channels in memory order. -/
def RGB.slice_as_slice (l : List (RGB T)) : List T := l.flatMap RGB.as_slice

/-- View of one `BGR<T>` as its 3 channels in memory order (`impl_rgb!`
applied to `BGR`, src/internal/rgb.rs line 144). -/
def BGR.as_slice (p : BGR T) : List T := [p.b, p.g, p.r]

/-- View of a slice `[BGR<T>]` as `len * 3` channels (`impl_rgb!` applied
to `BGR`, src/internal/rgb.rs line 144). -/
def BGR.slice_as_slice (l : List (BGR T)) : List T := l.flatMap BGR.as_slice

/-- View of one `Gray<T>` as one channel (`slice::from_ref(&self.0)`,
src/alt.rs lines 291-301). -/
def Gray.as_slice (p : Gray T) : List T := [p.c0]

/-- View of a slice `[Gray<T>]` as `len` channels (src/alt.rs lines
303-313). -/
def Gray.slice_as_slice (l : List (Gray T)) : List T := l.flatMap Gray.as_slice

/-- View of one homogeneous `GrayAlpha<T>` (alpha type equal to `T`) as its
2 channels (src/alt.rs lines 264-274). -/
def GrayAlpha.as_slice (p : GrayAlpha T T) : List T := [p.c0, p.c1]

/-- View of a slice `[GrayAlpha<T>]` as `len * 2` channels (src/alt.rs
lines 276-286). -/
def GrayAlpha.slice_as_slice (l : List (GrayAlpha T T)) : List T :=
  l.flatMap GrayAlpha.as_slice

/-- The `k`-th declared channel of an `RGB` pixel (declared order
`r, g, b`), `none` past the arity. -/
def RGB.channel (p : RGB T) : Nat → Option T
  | 0 => some p.r
  | 1 => some p.g
  | 2 => some p.b
  | _ => none

/-- The `k`-th declared channel of a `BGR` pixel (declared order
`b, g, r`), `none` past the arity. -/
def BGR.channel (p : BGR T) : Nat → Option T
  | 0 => some p.b
  | 1 => some p.g
  | 2 => some p.r
  | _ => none

/-- The `k`-th declared channel of a `Gray` pixel. -/
def Gray.channel (p : Gray T) : Nat → Option T
  | 0 => some p.c0
  | _ => none

/-- The `k`-th declared channel of a homogeneous `GrayAlpha` pixel
(declared order brightness, alpha). -/
def GrayAlpha.channel (p : GrayAlpha T T) : Nat → Option T
  | 0 => some p.c0
  | 1 => some p.c1
  | _ => none

/-! ### Byte view layer (`ComponentBytes`, src/internal/pixel.rs) -/

/-- The `Pod` capability of the component scalar type `T` (re-exported from
`bytemuck` in src/lib.rs): the caller-asserted fact that `T` is plain old
data, i.e. each value is exactly its `size` bytes of host representation,
with no padding and no invalid patterns. -/
structure Pod (T : Type) where
  size : Nat
  toBytes : T → List Nat
  length_toBytes : ∀ x, (toBytes x).length = size

/-- Default body of `ComponentBytes::as_bytes` (src/internal/pixel.rs lines
38-51): `assert_ne!(0, size_of::<T>())`, then reinterpret the component
slice as `size_of_val(slice) = slice.len() * size_of::<T>()` bytes.
The failed assertion is the `none` case. -/
def as_bytes (pod : Pod T) (slice : List T) : Option (List Nat) :=
  if pod.size = 0 then none
  else some ((slice.map pod.toBytes).flatten)

/-- Default body of `ComponentBytes::as_mut_bytes` (src/internal/pixel.rs
lines 53-60): same assertion and same view, mutably. -/
def as_mut_bytes (pod : Pod T) (slice : List T) : Option (List Nat) :=
  if pod.size = 0 then none
  else some ((slice.map pod.toBytes).flatten)

/-! ### Elementwise algebra (`src/internal/ops.rs`) -/

/-- Pixel + pixel for `RGB` (`impl_struct_ops_opaque! {RGB => r g b}`,
src/internal/ops.rs lines 20-31 and 293). -/
def RGB.add (addT : T → T → U) (p q : RGB T) : RGB U :=
  { r := addT p.r q.r, g := addT p.g q.g, b := addT p.b q.b }

/-- Pixel * pixel for `RGB` (src/internal/ops.rs lines 47-59). -/
def RGB.mul (mulT : T → T → U) (p q : RGB T) : RGB U :=
  { r := mulT p.r q.r, g := mulT p.g q.g, b := mulT p.b q.b }

/-- Pixel - pixel for `RGB` (src/internal/ops.rs lines 75-87). -/
def RGB.sub (subT : T → T → U) (p q : RGB T) : RGB U :=
  { r := subT p.r q.r, g := subT p.g q.g, b := subT p.b q.b }

/-- Pixel + pixel for `Gray` (`impl_struct_ops_opaque! {Gray => 0}`,
src/internal/ops.rs line 298). -/
def Gray.add (addT : T → T → U) (p q : Gray T) : Gray U :=
  { c0 := addT p.c0 q.c0 }

/-- Pixel * pixel for `Gray` (src/internal/ops.rs lines 47-59, 298). -/
def Gray.mul (mulT : T → T → U) (p q : Gray T) : Gray U :=
  { c0 := mulT p.c0 q.c0 }

/-- Pixel - pixel for `Gray` (src/internal/ops.rs lines 75-87, 298). -/
def Gray.sub (subT : T → T → U) (p q : Gray T) : Gray U :=
  { c0 := subT p.c0 q.c0 }

/-- Pixel + pixel for `GRB` (`impl_struct_ops_opaque! {GRB => g r b}`,
src/internal/ops.rs lines 20-31 and 296, under the `grb` feature). -/
def GRB.add (addT : T → T → U) (p q : GRB T) : GRB U :=
  { g := addT p.g q.g, r := addT p.r q.r, b := addT p.b q.b }

/-- Pixel * pixel for `GRB` (src/internal/ops.rs lines 47-59, 296). -/
def GRB.mul (mulT : T → T → U) (p q : GRB T) : GRB U :=
  { g := mulT p.g q.g, r := mulT p.r q.r, b := mulT p.b q.b }

/-- Pixel - pixel for `GRB` (src/internal/ops.rs lines 75-87, 296). -/
def GRB.sub (subT : T → T → U) (p q : GRB T) : GRB U :=
  { g := subT p.g q.g, r := subT p.r q.r, b := subT p.b q.b }

/-- The `k`-th declared channel of a `GRB` pixel (declared order
`g, r, b`), `none` past the arity. -/
def GRB.channel (p : GRB T) : Nat → Option T
  | 0 => some p.g
  | 1 => some p.r
  | 2 => some p.b
  | _ => none

/-- Pixel + pixel for `ARGB` (`impl_struct_ops_alpha! {ARGB => a r g b}`,
src/internal/ops.rs lines 115-126 and 303, under the `argb` feature); the
alpha channel uses its own scalar operation `addA`. -/
def ARGB.add (addT : T → T → U) (addA : TA → TA → UA) (p q : ARGB T TA) :
    ARGB U UA :=
  { a := addA p.a q.a, r := addT p.r q.r, g := addT p.g q.g,
    b := addT p.b q.b }

/-- Pixel - pixel for `ARGB` (src/internal/ops.rs lines 144-155, 303). -/
def ARGB.sub (subT : T → T → U) (subA : TA → TA → UA) (p q : ARGB T TA) :
    ARGB U UA :=
  { a := subA p.a q.a, r := subT p.r q.r, g := subT p.g q.g,
    b := subT p.b q.b }

/-- Pixel + pixel for `RGBA` (`impl_struct_ops_alpha! {RGBA => r g b a}`,
src/internal/ops.rs lines 115-126 and 300); the alpha channel uses its own
scalar operation `addA`. -/
def RGBA.add (addT : T → T → U) (addA : TA → TA → UA) (p q : RGBA T TA) :
    RGBA U UA :=
  { r := addT p.r q.r, g := addT p.g q.g, b := addT p.b q.b,
    a := addA p.a q.a }

/-- Pixel - pixel for `RGBA` (src/internal/ops.rs lines 144-155, 300). -/
def RGBA.sub (subT : T → T → U) (subA : TA → TA → UA) (p q : RGBA T TA) :
    RGBA U UA :=
  { r := subT p.r q.r, g := subT p.g q.g, b := subT p.b q.b,
    a := subA p.a q.a }

/-- Pixel + pixel for `GrayAlpha` (`impl_struct_ops_alpha! {GrayAlpha => 0 1}`,
src/internal/ops.rs lines 115-126 and 305). -/
def GrayAlpha.add (addT : T → T → U) (addA : TA → TA → UA)
    (p q : GrayAlpha T TA) : GrayAlpha U UA :=
  { c0 := addT p.c0 q.c0, c1 := addA p.c1 q.c1 }

/-- Pixel - pixel for `GrayAlpha` (src/internal/ops.rs lines 144-155, 305). -/
def GrayAlpha.sub (subT : T → T → U) (subA : TA → TA → UA)
    (p q : GrayAlpha T TA) : GrayAlpha U UA :=
  { c0 := subT p.c0 q.c0, c1 := subA p.c1 q.c1 }

/-- The binary pixel-pixel operators that can appear in an impl. -/
inductive BinOp
  | add
  | sub
  | mul
deriving DecidableEq

/-- The pixel variants of the crate.  `GRB`, `ARGB` and `ABGR` exist only
under the `grb` / `argb` cargo features; they are included here with the
features considered enabled. -/
inductive Variant
  | RGB
  | BGR
  | GRB
  | RGBA
  | BGRA
  | ARGB
  | ABGR
  | Gray
  | GrayAlpha
deriving DecidableEq

/-- Which pixel*pixel / pixel+pixel / pixel-pixel operator impls
`src/internal/ops.rs` generates for each variant, read off the macro
definitions (`impl_struct_ops_opaque` generates `Add`, `Mul`, `Sub`;
`impl_struct_ops_alpha` generates `Add` and `Sub` but no `Mul`) and the
macro invocations at lines 293-305 (`RGB`, `GRB`, `Gray` get the first
macro; `RGBA`, `ARGB`, `GrayAlpha` get the second; `BGR`, `BGRA`, `ABGR`
get neither). -/
def pixelPixelOps : Variant → List BinOp
  | .RGB => [.add, .sub, .mul]
  | .GRB => [.add, .sub, .mul]
  | .Gray => [.add, .sub, .mul]
  | .RGBA => [.add, .sub]
  | .ARGB => [.add, .sub]
  | .GrayAlpha => [.add, .sub]
  | .BGR => []
  | .BGRA => []
  | .ABGR => []

/-- Which variants get the broadcast pixel-scalar operators
(`impl_scalar!` invocations, src/internal/ops.rs lines 281-291: `RGB`,
`RGBA`, `ARGB`, `GRB`, `Gray`, `GrayAlpha`; `BGR`, `BGRA`, `ABGR` are
absent). -/
def hasScalarOps : Variant → Bool
  | .RGB => true
  | .RGBA => true
  | .ARGB => true
  | .GRB => true
  | .Gray => true
  | .GrayAlpha => true
  | .BGR => false
  | .BGRA => false
  | .ABGR => false

/-! ### Per-channel maps (`ComponentMap` / `ColorComponentMap`) -/

/-- `ComponentMap::map` for `RGB` (src/internal/rgb.rs lines 52-64):
applies `f` to each of `r`, `g`, `b`. -/
def RGB.map (p : RGB T) (f : T → B) : RGB B :=
  { r := f p.r, g := f p.g, b := f p.b }

/-- `ColorComponentMap::map_c` for `RGB` (src/internal/rgb.rs lines 66-78):
no alpha channel, so identical to `map`. -/
def RGB.map_c (p : RGB T) (f : T → B) : RGB B :=
  { r := f p.r, g := f p.g, b := f p.b }

/-- `ComponentMap::map` for `Gray` (src/alt.rs lines 224-232). -/
def Gray.map (p : Gray T) (f : T → B) : Gray B :=
  { c0 := f p.c0 }

/-- `ColorComponentMap::map_c` for `Gray` (src/alt.rs lines 234-242). -/
def Gray.map_c (p : Gray T) (f : T → B) : Gray B :=
  { c0 := f p.c0 }

/-- `ComponentMap::map` for homogeneous `GrayAlpha<T>` (src/alt.rs lines
244-252): applies `f` to both the brightness and the alpha channel. -/
def GrayAlpha.map (p : GrayAlpha T T) (f : T → B) : GrayAlpha B B :=
  { c0 := f p.c0, c1 := f p.c1 }

/-- `ColorComponentMap::map_c` for `GrayAlpha<T, A>` (src/alt.rs lines
254-262): applies `f` to the brightness channel only; the alpha channel is
copied through unchanged. -/
def GrayAlpha.map_c (p : GrayAlpha T TA) (f : T → B) : GrayAlpha B TA :=
  { c0 := f p.c0, c1 := p.c1 }

/-- Modelled from the spec: `src/internal/rgba.rs` is declared in
src/lib.rs but absent from the sources; per the spec (section 4.4) `map`
"applies a supplied per-channel transform to every channel, including
alpha". -/
def RGBA.map (p : RGBA T T) (f : T → B) : RGBA B B :=
  { r := f p.r, g := f p.g, b := f p.b, a := f p.a }

/-- Modelled from the spec: `src/internal/rgba.rs` is absent from the
sources; per the spec (section 4.4) `map_c` "applies the transform only to
non-alpha channels; the alpha channel is carried through unchanged". -/
def RGBA.map_c (p : RGBA T TA) (f : T → B) : RGBA B TA :=
  { r := f p.r, g := f p.g, b := f p.b, a := p.a }

/-! ### Broadcast pixel-scalar operators (`impl_scalar!`,
src/internal/ops.rs lines 181-291).  Each is `self.map(|l| l op r)`. -/

/-- `px + scalar` for `RGB` (src/internal/ops.rs lines 207-218). -/
def RGB.add_scalar (addT : T → T → T) (p : RGB T) (s : T) : RGB T :=
  p.map (fun l => addT l s)

/-- `px - scalar` for `RGB` (src/internal/ops.rs lines 183-194). -/
def RGB.sub_scalar (subT : T → T → T) (p : RGB T) (s : T) : RGB T :=
  p.map (fun l => subT l s)

/-- `px * scalar` for `RGB` (src/internal/ops.rs lines 231-242). -/
def RGB.mul_scalar (mulT : T → T → T) (p : RGB T) (s : T) : RGB T :=
  p.map (fun l => mulT l s)

/-- `px / scalar` for `RGB` (src/internal/ops.rs lines 255-266). -/
def RGB.div_scalar (divT : T → T → T) (p : RGB T) (s : T) : RGB T :=
  p.map (fun l => divT l s)

/-- `px + scalar` for `Gray` (src/internal/ops.rs line 290). -/
def Gray.add_scalar (addT : T → T → T) (p : Gray T) (s : T) : Gray T :=
  p.map (fun l => addT l s)

/-- `px - scalar` for `Gray`. -/
def Gray.sub_scalar (subT : T → T → T) (p : Gray T) (s : T) : Gray T :=
  p.map (fun l => subT l s)

/-- `px * scalar` for `Gray`. -/
def Gray.mul_scalar (mulT : T → T → T) (p : Gray T) (s : T) : Gray T :=
  p.map (fun l => mulT l s)

/-- `px / scalar` for `Gray`. -/
def Gray.div_scalar (divT : T → T → T) (p : Gray T) (s : T) : Gray T :=
  p.map (fun l => divT l s)

/-- `px + scalar` for homogeneous `GrayAlpha<T>` (src/internal/ops.rs line
291); via `GrayAlpha::map`, the scalar reaches the alpha channel too. -/
def GrayAlpha.add_scalar (addT : T → T → T) (p : GrayAlpha T T) (s : T) :
    GrayAlpha T T :=
  p.map (fun l => addT l s)

/-- `px - scalar` for homogeneous `GrayAlpha<T>`. -/
def GrayAlpha.sub_scalar (subT : T → T → T) (p : GrayAlpha T T) (s : T) :
    GrayAlpha T T :=
  p.map (fun l => subT l s)

/-- `px * scalar` for homogeneous `GrayAlpha<T>`. -/
def GrayAlpha.mul_scalar (mulT : T → T → T) (p : GrayAlpha T T) (s : T) :
    GrayAlpha T T :=
  p.map (fun l => mulT l s)

/-- `px / scalar` for homogeneous `GrayAlpha<T>`. -/
def GrayAlpha.div_scalar (divT : T → T → T) (p : GrayAlpha T T) (s : T) :
    GrayAlpha T T :=
  p.map (fun l => divT l s)

/-- `px + scalar` for homogeneous `RGBA<T>` (src/internal/ops.rs line 282),
via the spec-modelled `RGBA.map`. -/
def RGBA.add_scalar (addT : T → T → T) (p : RGBA T T) (s : T) : RGBA T T :=
  p.map (fun l => addT l s)

/-- `px - scalar` for homogeneous `RGBA<T>`. -/
def RGBA.sub_scalar (subT : T → T → T) (p : RGBA T T) (s : T) : RGBA T T :=
  p.map (fun l => subT l s)

/-- `px * scalar` for homogeneous `RGBA<T>`. -/
def RGBA.mul_scalar (mulT : T → T → T) (p : RGBA T T) (s : T) : RGBA T T :=
  p.map (fun l => mulT l s)

/-- `px / scalar` for homogeneous `RGBA<T>`. -/
def RGBA.div_scalar (divT : T → T → T) (p : RGBA T T) (s : T) : RGBA T T :=
  p.map (fun l => divT l s)

/-! ### Sum reduction (src/internal/ops.rs lines 103-108 and 172-177).
`iter.fold($ty::default(), Add::add)`; the derived `Default` fills every
field with the scalar default `d` (for the numeric scalars, zero). -/

/-- Derived `Default` for `RGB`: every field `T::default()`. -/
def RGB.defaultPx (d : T) : RGB T := { r := d, g := d, b := d }

/-- `Sum` for `RGB` (src/internal/ops.rs lines 103-108, 293). -/
def RGB.sum (addT : T → T → T) (d : T) (l : List (RGB T)) : RGB T :=
  l.foldl (RGB.add addT) (RGB.defaultPx d)

/-- Derived `Default` for `Gray`. -/
def Gray.defaultPx (d : T) : Gray T := { c0 := d }

/-- `Sum` for `Gray` (src/internal/ops.rs lines 103-108, 298). -/
def Gray.sum (addT : T → T → T) (d : T) (l : List (Gray T)) : Gray T :=
  l.foldl (Gray.add addT) (Gray.defaultPx d)

/-- Derived `Default` for `RGBA`: color fields `T::default()`, alpha field
`TA::default()`. -/
def RGBA.defaultPx (d : T) (dA : TA) : RGBA T TA :=
  { r := d, g := d, b := d, a := dA }

/-- `Sum` for `RGBA` (src/internal/ops.rs lines 172-177, 300). -/
def RGBA.sum (addT : T → T → T) (addA : TA → TA → TA) (d : T) (dA : TA)
    (l : List (RGBA T TA)) : RGBA T TA :=
  l.foldl (RGBA.add addT addA) (RGBA.defaultPx d dA)

/-- Derived `Default` for `GrayAlpha`. -/
def GrayAlpha.defaultPx (d : T) (dA : TA) : GrayAlpha T TA :=
  { c0 := d, c1 := dA }

/-- `Sum` for `GrayAlpha` (src/internal/ops.rs lines 172-177, 305). -/
def GrayAlpha.sum (addT : T → T → T) (addA : TA → TA → TA) (d : T) (dA : TA)
    (l : List (GrayAlpha T TA)) : GrayAlpha T TA :=
  l.foldl (GrayAlpha.add addT addA) (GrayAlpha.defaultPx d dA)

/-! ### Iterator construction (`FromIterator<T> for RGB<T>`,
src/internal/rgb.rs lines 150-163) -/

/-- One step of a Rust iterator over a finite element sequence:
`Iterator::next` pops the front element, `none` when exhausted. -/
def next : List T → Option (T × List T)
  | [] => none
  | x :: xs => some (x, xs)

/-- `FromIterator::from_iter` for `RGB<T>` (src/internal/rgb.rs lines
150-163): call `next().unwrap()` three times, assign the results to `r`,
`g`, `b` in that order, and drop the remaining iterator.  Each `unwrap` of
an exhausted iterator panics, embedded as `none`. -/
def RGB.from_iter (l : List T) : Option (RGB T) :=
  match next l with
  | none => none
  | some (r, l1) =>
    match next l1 with
    | none => none
    | some (g, l2) =>
      match next l2 with
      | none => none
      | some (b, _) => some { r := r, g := g, b := b }

/-! ### Array/struct conversions (src/internal/convert/array.rs).
A Rust `[T; 3]` / `[T; 4]` is embedded as an ordered tuple. -/

/-- `From<[T; 3]> for RGB<T>` (src/internal/convert/array.rs lines 7-16):
`r` from index 0, `g` from 1, `b` from 2. -/
def RGB.from_array (x : T × T × T) : RGB T :=
  { r := x.1, g := x.2.1, b := x.2.2 }

/-- `From<RGB<T>> for [T; 3]` (src/internal/convert/array.rs lines 18-23):
`[r, g, b]`. -/
def RGB.into_array (p : RGB T) : T × T × T := (p.r, p.g, p.b)

/-- `From<[T; 4]> for RGBA<T>` (src/internal/convert/array.rs lines
25-35). -/
def RGBA.from_array (x : T × T × T × T) : RGBA T T :=
  { r := x.1, g := x.2.1, b := x.2.2.1, a := x.2.2.2 }

/-- `From<RGBA<T>> for [T; 4]` (src/internal/convert/array.rs lines 37-42):
`[r, g, b, a]`. -/
def RGBA.into_array (p : RGBA T T) : T × T × T × T := (p.r, p.g, p.b, p.a)

/-- `From<[T; 3]> for BGR<T>` (src/internal/convert/array.rs lines 65-74):
`b` from index 0, `g` from 1, `r` from 2 (array is physically blue-first). -/
def BGR.from_array (x : T × T × T) : BGR T :=
  { b := x.1, g := x.2.1, r := x.2.2 }

/-- `From<BGR<T>> for [T; 3]` (src/internal/convert/array.rs lines 76-81):
`[b, g, r]`. -/
def BGR.into_array (p : BGR T) : T × T × T := (p.b, p.g, p.r)

/-- `From<[T; 4]> for BGRA<T>` (src/internal/convert/array.rs lines
83-93). -/
def BGRA.from_array (x : T × T × T × T) : BGRA T T :=
  { b := x.1, g := x.2.1, r := x.2.2.1, a := x.2.2.2 }

/-- `From<BGRA<T>> for [T; 4]` (src/internal/convert/array.rs lines 95-100):
`[b, g, r, a]`. -/
def BGRA.into_array (p : BGRA T T) : T × T × T × T := (p.b, p.g, p.r, p.a)

/-! ### Gray / GrayAlpha conversions and accessors (src/alt.rs) -/

/-- `From<Gray<T>> for GrayAlpha<T, u8>` (src/alt.rs lines 318-324):
brightness copied, alpha set to `0xFF` ("assumes 255 is opaque"). -/
def GrayAlpha.from_gray_u8 (other : Gray T) : GrayAlpha T Nat :=
  { c0 := other.c0, c1 := 0xFF }

/-- `From<Gray<T>> for GrayAlpha<T, u16>` (src/alt.rs lines 326-332):
brightness copied, alpha set to `0xFFFF` ("assumes 65535 is opaque"). -/
def GrayAlpha.from_gray_u16 (other : Gray T) : GrayAlpha T Nat :=
  { c0 := other.c0, c1 := 0xFFFF }

/-- `GrayAlpha::gray` (src/alt.rs lines 174-180): copy the brightness
component as a `Gray`. -/
def GrayAlpha.gray (p : GrayAlpha T TA) : Gray T := { c0 := p.c0 }

/-- `GrayAlpha::alpha` (src/alt.rs lines 195-200): new `GrayAlpha` with the
same brightness and the given alpha. -/
def GrayAlpha.alpha (p : GrayAlpha T TA) (a : TA) : GrayAlpha T TA :=
  { c0 := p.c0, c1 := a }

/-- `GrayAlpha::map_alpha` (src/alt.rs lines 202-209): new `GrayAlpha` with
the same brightness and `f` applied to the alpha. -/
def GrayAlpha.map_alpha (p : GrayAlpha T TA) (f : TA → B) : GrayAlpha T B :=
  { c0 := p.c0, c1 := f p.c1 }

/-- The `k`-th declared channel of a homogeneous `RGBA` pixel (declared
order `r, g, b, a`). -/
def RGBA.channel (p : RGBA T T) : Nat → Option T
  | 0 => some p.r
  | 1 => some p.g
  | 2 => some p.b
  | 3 => some p.a
  | _ => none

/-! ## Helper lemmas -/

/-- Flattening a list of constant-length blocks multiplies the length. -/
theorem length_flatMap_const {P : Type} (f : P → List T) (A : Nat)
    (hf : ∀ p, (f p).length = A) (l : List P) :
    (l.flatMap f).length = l.length * A := by
  induction l with
  | nil => simp
  | cons p l ih =>
    rw [List.flatMap_cons, List.length_append, hf, ih, List.length_cons]
    ring

/-- Indexing into a flattening of constant-length blocks: position `i`
falls in block `i / A` at offset `i % A`. -/
theorem flatMap_getElem {P : Type} (f : P → List T) (A : Nat) (hA : 0 < A)
    (hf : ∀ p, (f p).length = A) (l : List P) (i : Nat) :
    (l.flatMap f)[i]? = (l[i / A]?).bind (fun p => (f p)[i % A]?) := by
  induction l generalizing i with
  | nil => simp
  | cons p l ih =>
    rw [List.flatMap_cons]
    by_cases h : i < A
    · rw [List.getElem?_append_left (by rw [hf]; exact h),
        Nat.div_eq_of_lt h, Nat.mod_eq_of_lt h]
      simp
    · push_neg at h
      rw [List.getElem?_append_right (by rw [hf]; exact h), hf,
        ih (i - A), Nat.div_eq_sub_div hA h, Nat.mod_eq_sub_mod h]
      simp

/-- The single-pixel `RGB` view indexed at `k` is the `k`-th declared
channel. -/
theorem rgb_as_slice_get (p : RGB T) (k : Nat) :
    p.as_slice[k]? = p.channel k := by
  match k with
  | 0 => rfl
  | 1 => rfl
  | 2 => rfl
  | (n + 3) => simp [RGB.as_slice, RGB.channel]

/-- The single-pixel `BGR` view indexed at `k` is the `k`-th declared
channel. -/
theorem bgr_as_slice_get (p : BGR T) (k : Nat) :
    p.as_slice[k]? = p.channel k := by
  match k with
  | 0 => rfl
  | 1 => rfl
  | 2 => rfl
  | (n + 3) => simp [BGR.as_slice, BGR.channel]

/-- The single-pixel `Gray` view indexed at `k` is the `k`-th declared
channel. -/
theorem gray_as_slice_get (p : Gray T) (k : Nat) :
    p.as_slice[k]? = p.channel k := by
  match k with
  | 0 => rfl
  | (n + 1) => simp [Gray.as_slice, Gray.channel]

/-- The single-pixel `GrayAlpha` view indexed at `k` is the `k`-th declared
channel. -/
theorem gray_alpha_as_slice_get (p : GrayAlpha T T) (k : Nat) :
    p.as_slice[k]? = p.channel k := by
  match k with
  | 0 => rfl
  | 1 => rfl
  | (n + 2) => simp [GrayAlpha.as_slice, GrayAlpha.channel]

/-- Bulk `RGB` view indexing in terms of pixels and declared channels. -/
theorem rgb_slice_as_slice_get (l : List (RGB T)) (i : Nat) :
    (RGB.slice_as_slice l)[i]? = (l[i / 3]?).bind (fun p => p.channel (i % 3)) := by
  rw [RGB.slice_as_slice,
    flatMap_getElem RGB.as_slice 3 (by norm_num) (fun _ => rfl) l i]
  cases l[i / 3]? with
  | none => rfl
  | some p => simpa using rgb_as_slice_get p (i % 3)

/-- Bulk `BGR` view indexing in terms of pixels and declared channels. -/
theorem bgr_slice_as_slice_get (l : List (BGR T)) (i : Nat) :
    (BGR.slice_as_slice l)[i]? = (l[i / 3]?).bind (fun p => p.channel (i % 3)) := by
  rw [BGR.slice_as_slice,
    flatMap_getElem BGR.as_slice 3 (by norm_num) (fun _ => rfl) l i]
  cases l[i / 3]? with
  | none => rfl
  | some p => simpa using bgr_as_slice_get p (i % 3)

/-- Bulk `Gray` view indexing in terms of pixels and declared channels. -/
theorem gray_slice_as_slice_get (l : List (Gray T)) (i : Nat) :
    (Gray.slice_as_slice l)[i]? = (l[i / 1]?).bind (fun p => p.channel (i % 1)) := by
  rw [Gray.slice_as_slice,
    flatMap_getElem Gray.as_slice 1 (by norm_num) (fun _ => rfl) l i]
  cases l[i / 1]? with
  | none => rfl
  | some p => simpa using gray_as_slice_get p (i % 1)

/-- Bulk `GrayAlpha` view indexing in terms of pixels and declared
channels. -/
theorem gray_alpha_slice_as_slice_get (l : List (GrayAlpha T T)) (i : Nat) :
    (GrayAlpha.slice_as_slice l)[i]? =
      (l[i / 2]?).bind (fun p => p.channel (i % 2)) := by
  rw [GrayAlpha.slice_as_slice,
    flatMap_getElem GrayAlpha.as_slice 2 (by norm_num) (fun _ => rfl) l i]
  cases l[i / 2]? with
  | none => rfl
  | some p => simpa using gray_alpha_as_slice_get p (i % 2)

/-! ## Claims -/

/-- C1: for every slice of `N` pixels of a homogeneous variant (`RGB`,
`BGR`, `Gray`, `GrayAlpha` with equal channel types), `as_slice` returns a
flat view of length `N` times the arity whose position `i` holds the
`(i mod arity)`-th declared channel of pixel `i / arity`; a single pixel's
view has length exactly the arity with channels in declared order. -/
theorem claim_c1_flat_view (T : Type) (l3 : List (RGB T)) (lb : List (BGR T))
    (lg : List (Gray T)) (lga : List (GrayAlpha T T)) (p3 : RGB T)
    (pb : BGR T) (pg : Gray T) (pga : GrayAlpha T T) (i k : Nat) :
    (RGB.slice_as_slice l3).length = l3.length * 3 ∧
    (RGB.slice_as_slice l3)[i]? = (l3[i / 3]?).bind (fun p => p.channel (i % 3)) ∧
    (BGR.slice_as_slice lb).length = lb.length * 3 ∧
    (BGR.slice_as_slice lb)[i]? = (lb[i / 3]?).bind (fun p => p.channel (i % 3)) ∧
    (Gray.slice_as_slice lg).length = lg.length * 1 ∧
    (Gray.slice_as_slice lg)[i]? = (lg[i / 1]?).bind (fun p => p.channel (i % 1)) ∧
    (GrayAlpha.slice_as_slice lga).length = lga.length * 2 ∧
    (GrayAlpha.slice_as_slice lga)[i]? =
      (lga[i / 2]?).bind (fun p => p.channel (i % 2)) ∧
    p3.as_slice.length = 3 ∧ p3.as_slice[k]? = p3.channel k ∧
    pb.as_slice.length = 3 ∧ pb.as_slice[k]? = pb.channel k ∧
    pg.as_slice.length = 1 ∧ pg.as_slice[k]? = pg.channel k ∧
    pga.as_slice.length = 2 ∧ pga.as_slice[k]? = pga.channel k :=
  ⟨length_flatMap_const RGB.as_slice 3 (fun _ => rfl) l3,
   rgb_slice_as_slice_get l3 i,
   length_flatMap_const BGR.as_slice 3 (fun _ => rfl) lb,
   bgr_slice_as_slice_get lb i,
   length_flatMap_const Gray.as_slice 1 (fun _ => rfl) lg,
   gray_slice_as_slice_get lg i,
   length_flatMap_const GrayAlpha.as_slice 2 (fun _ => rfl) lga,
   gray_alpha_slice_as_slice_get lga i,
   rfl, rgb_as_slice_get p3 k,
   rfl, bgr_as_slice_get pb k,
   rfl, gray_as_slice_get pg k,
   rfl, gray_alpha_as_slice_get pga k⟩

/-- A concrete `Pod` capability for `Nat` standing in for `u8`: one byte
per value. -/
def podNat1 : Pod Nat :=
  { size := 1, toBytes := fun x => [x % 256], length_toBytes := fun _ => rfl }

/-- C2: `as_bytes` and `as_mut_bytes` on a component view over scalar type
`T` abort exactly when `size_of::<T>()` is zero; otherwise they return a
byte view whose length is the component view's length times
`size_of::<T>()`. -/
theorem claim_c2_byte_view (T : Type) (pod : Pod T) (slice : List T) :
    (as_bytes pod slice = none ↔ pod.size = 0) ∧
    (as_mut_bytes pod slice = none ↔ pod.size = 0) ∧
    (∀ bs, as_bytes pod slice = some bs →
      bs.length = slice.length * pod.size) ∧
    (∀ bs, as_mut_bytes pod slice = some bs →
      bs.length = slice.length * pod.size) := by
  have hlen : ((slice.map pod.toBytes).flatten).length = slice.length * pod.size := by
    have : (slice.map pod.toBytes).flatten = slice.flatMap pod.toBytes := by
      simp [List.flatMap]
    rw [this]
    exact length_flatMap_const pod.toBytes pod.size pod.length_toBytes slice
  by_cases h : pod.size = 0
  · simp [as_bytes, as_mut_bytes, h]
  · have e1 : as_bytes pod slice = some ((slice.map pod.toBytes).flatten) := by
      simp [as_bytes, h]
    have e2 : as_mut_bytes pod slice = some ((slice.map pod.toBytes).flatten) := by
      simp [as_mut_bytes, h]
    refine ⟨by simp [e1, h], by simp [e2, h], fun bs hbs => ?_, fun bs hbs => ?_⟩
    · rw [e1] at hbs
      injection hbs with hbs
      exact hbs ▸ hlen
    · rw [e2] at hbs
      injection hbs with hbs
      exact hbs ▸ hlen

/-- Concrete check for C2: a two-element `Nat` view with a one-byte
representation yields a two-byte view. -/
theorem claim_c2_byte_view_witness :
    as_bytes podNat1 [5, 6] = some [5, 6] ∧
    ([5, 6] : List Nat).length = ([5, 6] : List Nat).length * podNat1.size :=
  ⟨rfl, (claim_c2_byte_view Nat podNat1 [5, 6]).2.2.1 [5, 6] rfl⟩

/-- C3 counterexample: the claim asserts the binary operators `+`, `-`,
`*` exist channelwise for every variant, "including the alpha-bearing ones
(RGBA, GrayAlpha)".  It fails at these concrete variants:
`impl_struct_ops_alpha` (src/internal/ops.rs lines 112-179) generates no
`Mul` impl, so `GrayAlpha`, `RGBA` and `ARGB` have no pixel-by-pixel `*`;
and src/internal/ops.rs invokes neither ops macro for `BGR`, `BGRA` or
`ABGR`, which therefore have no pixel-pixel operators at all. -/
theorem claim_c3_counterexample :
    BinOp.mul ∉ pixelPixelOps Variant.GrayAlpha ∧
    BinOp.mul ∉ pixelPixelOps Variant.RGBA ∧
    BinOp.mul ∉ pixelPixelOps Variant.ARGB ∧
    pixelPixelOps Variant.BGR = [] ∧
    pixelPixelOps Variant.BGRA = [] ∧
    pixelPixelOps Variant.ABGR = [] := by
  decide

/-- C3 amended: the pixel-pixel operators the code provides are `+`, `-`
and `*` for the variants without alpha (`RGB`, `GRB`, `Gray`) and only `+`
and `-` for the alpha-bearing variants (`RGBA`, `ARGB`, `GrayAlpha`), with
no pixel-pixel operators at all for `BGR`, `BGRA`, `ABGR`; each provided
operator applies the corresponding scalar operator independently to every
declared channel. -/
theorem claim_c3_elementwise_ops (T U TA UA : Type) (f : T → T → U)
    (fA : TA → TA → UA) (p q : RGB T) (pgrb qgrb : GRB T) (pg qg : Gray T)
    (pa qa : RGBA T TA) (parg qarg : ARGB T TA) (pga qga : GrayAlpha T TA)
    (k : Nat) :
    pixelPixelOps Variant.RGB = [BinOp.add, BinOp.sub, BinOp.mul] ∧
    pixelPixelOps Variant.GRB = [BinOp.add, BinOp.sub, BinOp.mul] ∧
    pixelPixelOps Variant.Gray = [BinOp.add, BinOp.sub, BinOp.mul] ∧
    pixelPixelOps Variant.RGBA = [BinOp.add, BinOp.sub] ∧
    pixelPixelOps Variant.ARGB = [BinOp.add, BinOp.sub] ∧
    pixelPixelOps Variant.GrayAlpha = [BinOp.add, BinOp.sub] ∧
    pixelPixelOps Variant.BGR = [] ∧
    pixelPixelOps Variant.BGRA = [] ∧
    pixelPixelOps Variant.ABGR = [] ∧
    (GRB.add f pgrb qgrb).channel k =
      Option.map₂ f (pgrb.channel k) (qgrb.channel k) ∧
    (GRB.sub f pgrb qgrb).channel k =
      Option.map₂ f (pgrb.channel k) (qgrb.channel k) ∧
    (GRB.mul f pgrb qgrb).channel k =
      Option.map₂ f (pgrb.channel k) (qgrb.channel k) ∧
    (ARGB.add f fA parg qarg).a = fA parg.a qarg.a ∧
    (ARGB.add f fA parg qarg).r = f parg.r qarg.r ∧
    (ARGB.add f fA parg qarg).g = f parg.g qarg.g ∧
    (ARGB.add f fA parg qarg).b = f parg.b qarg.b ∧
    (ARGB.sub f fA parg qarg).a = fA parg.a qarg.a ∧
    (ARGB.sub f fA parg qarg).r = f parg.r qarg.r ∧
    (ARGB.sub f fA parg qarg).g = f parg.g qarg.g ∧
    (ARGB.sub f fA parg qarg).b = f parg.b qarg.b ∧
    (RGB.add f p q).channel k = Option.map₂ f (p.channel k) (q.channel k) ∧
    (RGB.sub f p q).channel k = Option.map₂ f (p.channel k) (q.channel k) ∧
    (RGB.mul f p q).channel k = Option.map₂ f (p.channel k) (q.channel k) ∧
    (Gray.add f pg qg).channel k = Option.map₂ f (pg.channel k) (qg.channel k) ∧
    (Gray.sub f pg qg).channel k = Option.map₂ f (pg.channel k) (qg.channel k) ∧
    (Gray.mul f pg qg).channel k = Option.map₂ f (pg.channel k) (qg.channel k) ∧
    (RGBA.add f fA pa qa).r = f pa.r qa.r ∧
    (RGBA.add f fA pa qa).g = f pa.g qa.g ∧
    (RGBA.add f fA pa qa).b = f pa.b qa.b ∧
    (RGBA.add f fA pa qa).a = fA pa.a qa.a ∧
    (RGBA.sub f fA pa qa).r = f pa.r qa.r ∧
    (RGBA.sub f fA pa qa).g = f pa.g qa.g ∧
    (RGBA.sub f fA pa qa).b = f pa.b qa.b ∧
    (RGBA.sub f fA pa qa).a = fA pa.a qa.a ∧
    (GrayAlpha.add f fA pga qga).c0 = f pga.c0 qga.c0 ∧
    (GrayAlpha.add f fA pga qga).c1 = fA pga.c1 qga.c1 ∧
    (GrayAlpha.sub f fA pga qga).c0 = f pga.c0 qga.c0 ∧
    (GrayAlpha.sub f fA pga qga).c1 = fA pga.c1 qga.c1 := by
  refine ⟨rfl, rfl, rfl, rfl, rfl, rfl, rfl, rfl, rfl, ?_, ?_, ?_,
    rfl, rfl, rfl, rfl, rfl, rfl, rfl, rfl,
    ?_, ?_, ?_, ?_, ?_, ?_, rfl, rfl, rfl, rfl,
    rfl, rfl, rfl, rfl, rfl, rfl, rfl, rfl⟩ <;>
    match k with
    | 0 => rfl
    | 1 => rfl
    | 2 => rfl
    | n + 3 => simp [RGB.channel, GRB.channel, Gray.channel, Option.map₂]

/-- C4: `map_c` applies the transform only to the non-alpha channels and
carries the alpha channel through unchanged, while `map` applies it to
every channel including alpha; for `GrayAlpha`, `map_c` yields
`(f brightness, alpha)` and `map` yields `(f brightness, f alpha)`.
(The `RGBA` half is settled against the spec-modelled `RGBA.map` /
`RGBA.map_c`, since src/internal/rgba.rs is missing.) -/
theorem claim_c4_map_c_alpha (T TA B : Type) (f : T → B) (g : T → T)
    (p : GrayAlpha T TA) (ph : GrayAlpha T T) (pa : RGBA T TA)
    (pah : RGBA T T) :
    (p.map_c f).c1 = p.c1 ∧
    (p.map_c f).c0 = f p.c0 ∧
    ph.map g = GrayAlpha.mk (g ph.c0) (g ph.c1) ∧
    (pa.map_c f).a = pa.a ∧
    (pa.map_c f).r = f pa.r ∧
    (pa.map_c f).g = f pa.g ∧
    (pa.map_c f).b = f pa.b ∧
    pah.map g = RGBA.mk (g pah.r) (g pah.g) (g pah.b) (g pah.a) :=
  ⟨rfl, rfl, rfl, rfl, rfl, rfl, rfl, rfl⟩

/-- C5: `Sum` folds with the derived all-default pixel (the all-zero pixel
for numeric scalars) and pairwise addition: the empty sequence sums to the
default pixel, `[p]` sums to `p`, and `[p1, p2]` sums to `p1 + p2`,
whenever the scalar defaults are left identities of the scalar additions
(as zero is for every numeric scalar). -/
theorem claim_c5_sum_fold (T TA : Type) (addT : T → T → T)
    (addA : TA → TA → TA) (d : T) (dA : TA) (hd : ∀ x, addT d x = x)
    (hdA : ∀ x, addA dA x = x) (p p1 p2 : RGB T) (g g1 g2 : Gray T)
    (a a1 a2 : RGBA T TA) (ga ga1 ga2 : GrayAlpha T TA) :
    RGB.sum addT d [] = RGB.defaultPx d ∧
    RGB.sum addT d [p] = p ∧
    RGB.sum addT d [p1, p2] = RGB.add addT p1 p2 ∧
    Gray.sum addT d [] = Gray.defaultPx d ∧
    Gray.sum addT d [g] = g ∧
    Gray.sum addT d [g1, g2] = Gray.add addT g1 g2 ∧
    RGBA.sum addT addA d dA [] = RGBA.defaultPx d dA ∧
    RGBA.sum addT addA d dA [a] = a ∧
    RGBA.sum addT addA d dA [a1, a2] = RGBA.add addT addA a1 a2 ∧
    GrayAlpha.sum addT addA d dA [] = GrayAlpha.defaultPx d dA ∧
    GrayAlpha.sum addT addA d dA [ga] = ga ∧
    GrayAlpha.sum addT addA d dA [ga1, ga2] =
      GrayAlpha.add addT addA ga1 ga2 := by
  refine ⟨rfl, ?_, ?_, rfl, ?_, ?_, rfl, ?_, ?_, rfl, ?_, ?_⟩ <;>
    simp [RGB.sum, Gray.sum, RGBA.sum, GrayAlpha.sum, RGB.add, Gray.add,
      RGBA.add, GrayAlpha.add, RGB.defaultPx, Gray.defaultPx,
      RGBA.defaultPx, GrayAlpha.defaultPx, hd, hdA]

/-- Concrete check for C5 at `Nat` scalars with zero defaults. -/
theorem claim_c5_sum_fold_witness :
    RGB.sum Nat.add 0 [RGB.mk 1 2 3] = RGB.mk 1 2 3 ∧
    GrayAlpha.sum Nat.add Nat.add 0 0 [GrayAlpha.mk 1 2, GrayAlpha.mk 3 4] =
      GrayAlpha.add Nat.add Nat.add (GrayAlpha.mk 1 2) (GrayAlpha.mk 3 4) := by
  have h := claim_c5_sum_fold Nat Nat Nat.add Nat.add 0 0
    (fun x => Nat.zero_add x) (fun x => Nat.zero_add x)
    (RGB.mk 1 2 3) (RGB.mk 1 2 3) (RGB.mk 1 2 3)
    (Gray.mk 1) (Gray.mk 1) (Gray.mk 1)
    (RGBA.mk 1 2 3 4) (RGBA.mk 1 2 3 4) (RGBA.mk 1 2 3 4)
    (GrayAlpha.mk 1 2) (GrayAlpha.mk 1 2) (GrayAlpha.mk 3 4)
  exact ⟨h.2.1, h.2.2.2.2.2.2.2.2.2.2.2⟩

/-- C6: constructing an `RGB` pixel from an iterator panics (aborts) when
the iterator yields fewer than 3 elements; with 3 or more, exactly the
first 3 are consumed in order into `r`, `g`, `b`, and any surplus is
ignored. -/
theorem claim_c6_from_iter (T : Type) (l : List T) (r g b : T)
    (rest : List T) :
    (RGB.from_iter l = none ↔ l.length < 3) ∧
    RGB.from_iter (r :: g :: b :: rest) = some (RGB.mk r g b) := by
  refine ⟨?_, rfl⟩
  rcases l with _ | ⟨x, _ | ⟨y, _ | ⟨z, t⟩⟩⟩ <;>
    simp [RGB.from_iter, next]

/-- C7: for `RGB`, `BGR`, `RGBA`, `BGRA`, converting a pixel to its
fixed-size array form and back yields the pixel again, the composition is
idempotent, and the opposite composition is the identity on arrays (the
array form being in declared memory order, blue-first for `BGR`/`BGRA`). -/
theorem claim_c7_array_roundtrip (T : Type) (p : RGB T) (pb : BGR T)
    (pa : RGBA T T) (pba : BGRA T T) (x3 : T × T × T) (x4 : T × T × T × T) :
    RGB.from_array (RGB.into_array p) = p ∧
    RGB.from_array (RGB.into_array (RGB.from_array (RGB.into_array p))) =
      RGB.from_array (RGB.into_array p) ∧
    RGB.into_array (RGB.from_array x3) = x3 ∧
    BGR.from_array (BGR.into_array pb) = pb ∧
    BGR.from_array (BGR.into_array (BGR.from_array (BGR.into_array pb))) =
      BGR.from_array (BGR.into_array pb) ∧
    BGR.into_array (BGR.from_array x3) = x3 ∧
    RGBA.from_array (RGBA.into_array pa) = pa ∧
    RGBA.from_array (RGBA.into_array (RGBA.from_array (RGBA.into_array pa))) =
      RGBA.from_array (RGBA.into_array pa) ∧
    RGBA.into_array (RGBA.from_array x4) = x4 ∧
    BGRA.from_array (BGRA.into_array pba) = pba ∧
    BGRA.from_array (BGRA.into_array (BGRA.from_array (BGRA.into_array pba))) =
      BGRA.from_array (BGRA.into_array pba) ∧
    BGRA.into_array (BGRA.from_array x4) = x4 :=
  ⟨rfl, rfl, rfl, rfl, rfl, rfl, rfl, rfl, rfl, rfl, rfl, rfl⟩

/-- Mapping commutes with channel access for `RGB`. -/
theorem rgb_map_channel (p : RGB T) (f : T → B) (k : Nat) :
    (p.map f).channel k = (p.channel k).map f := by
  match k with
  | 0 => rfl
  | 1 => rfl
  | 2 => rfl
  | n + 3 => simp [RGB.channel]

/-- Mapping commutes with channel access for `Gray`. -/
theorem gray_map_channel (p : Gray T) (f : T → B) (k : Nat) :
    (p.map f).channel k = (p.channel k).map f := by
  match k with
  | 0 => rfl
  | n + 1 => simp [Gray.channel]

/-- Mapping commutes with channel access for homogeneous `GrayAlpha`. -/
theorem gray_alpha_map_channel (p : GrayAlpha T T) (f : T → B) (k : Nat) :
    (p.map f).channel k = (p.channel k).map f := by
  match k with
  | 0 => rfl
  | 1 => rfl
  | n + 2 => simp [GrayAlpha.channel]

/-- Mapping commutes with channel access for homogeneous `RGBA`. -/
theorem rgba_map_channel (p : RGBA T T) (f : T → B) (k : Nat) :
    (p.map f).channel k = (p.channel k).map f := by
  match k with
  | 0 => rfl
  | 1 => rfl
  | 2 => rfl
  | 3 => rfl
  | n + 4 => simp [RGBA.channel]

/-- C8: the broadcast pixel-scalar operators `+`, `-`, `*`, `/` apply the
scalar operation to every declared channel identically, including the
alpha channel: channel `k` of `p op s` is `(channel k of p) op s` for
`RGB`, `RGBA`, `Gray` and `GrayAlpha` (the variants `impl_scalar!` is
invoked for; the `RGBA` case rests on the spec-modelled `RGBA.map`). -/
theorem claim_c8_scalar_broadcast (T : Type) (f : T → T → T) (s : T)
    (p : RGB T) (pa : RGBA T T) (g : Gray T) (ga : GrayAlpha T T)
    (k : Nat) :
    (RGB.add_scalar f p s).channel k = (p.channel k).map (fun l => f l s) ∧
    (RGB.sub_scalar f p s).channel k = (p.channel k).map (fun l => f l s) ∧
    (RGB.mul_scalar f p s).channel k = (p.channel k).map (fun l => f l s) ∧
    (RGB.div_scalar f p s).channel k = (p.channel k).map (fun l => f l s) ∧
    (RGBA.add_scalar f pa s).channel k = (pa.channel k).map (fun l => f l s) ∧
    (RGBA.sub_scalar f pa s).channel k = (pa.channel k).map (fun l => f l s) ∧
    (RGBA.mul_scalar f pa s).channel k = (pa.channel k).map (fun l => f l s) ∧
    (RGBA.div_scalar f pa s).channel k = (pa.channel k).map (fun l => f l s) ∧
    (Gray.add_scalar f g s).channel k = (g.channel k).map (fun l => f l s) ∧
    (Gray.sub_scalar f g s).channel k = (g.channel k).map (fun l => f l s) ∧
    (Gray.mul_scalar f g s).channel k = (g.channel k).map (fun l => f l s) ∧
    (Gray.div_scalar f g s).channel k = (g.channel k).map (fun l => f l s) ∧
    (GrayAlpha.add_scalar f ga s).channel k = (ga.channel k).map (fun l => f l s) ∧
    (GrayAlpha.sub_scalar f ga s).channel k = (ga.channel k).map (fun l => f l s) ∧
    (GrayAlpha.mul_scalar f ga s).channel k = (ga.channel k).map (fun l => f l s) ∧
    (GrayAlpha.div_scalar f ga s).channel k = (ga.channel k).map (fun l => f l s) ∧
    (GrayAlpha.add_scalar f ga s).c1 = f ga.c1 s ∧
    (RGBA.add_scalar f pa s).a = f pa.a s :=
  ⟨rgb_map_channel p _ k, rgb_map_channel p _ k, rgb_map_channel p _ k,
   rgb_map_channel p _ k, rgba_map_channel pa _ k, rgba_map_channel pa _ k,
   rgba_map_channel pa _ k, rgba_map_channel pa _ k, gray_map_channel g _ k,
   gray_map_channel g _ k, gray_map_channel g _ k, gray_map_channel g _ k,
   gray_alpha_map_channel ga _ k, gray_alpha_map_channel ga _ k,
   gray_alpha_map_channel ga _ k, gray_alpha_map_channel ga _ k, rfl, rfl⟩

/-- C9: converting `Gray<T>` into `GrayAlpha<T, u8>` keeps the brightness
and sets alpha to `0xFF`; into `GrayAlpha<T, u16>` it sets alpha to
`0xFFFF`; in particular `Gray(200u8)` converts to `GrayAlpha(200, 0xFF)`. -/
theorem claim_c9_gray_to_gray_alpha (T : Type) (g : Gray T) :
    (GrayAlpha.from_gray_u8 g).c0 = g.c0 ∧
    (GrayAlpha.from_gray_u8 g).c1 = 0xFF ∧
    (GrayAlpha.from_gray_u16 g).c0 = g.c0 ∧
    (GrayAlpha.from_gray_u16 g).c1 = 0xFFFF ∧
    GrayAlpha.from_gray_u8 (Gray.mk (200 : Nat)) = GrayAlpha.mk 200 255 :=
  ⟨rfl, rfl, rfl, rfl, rfl⟩

/-- C10: `alpha` replaces only the alpha channel, `map_alpha` transforms
only the alpha channel, `gray` extracts the brightness; the non-targeted
channel is never modified. -/
theorem claim_c10_gray_alpha_accessors (T TA B : Type) (p : GrayAlpha T TA)
    (a : TA) (f : TA → B) :
    (p.alpha a).c0 = p.c0 ∧
    (p.alpha a).c1 = a ∧
    (p.map_alpha f).c0 = p.c0 ∧
    (p.map_alpha f).c1 = f p.c1 ∧
    p.gray = Gray.mk p.c0 :=
  ⟨rfl, rfl, rfl, rfl, rfl⟩

end Cr
